import Mathlib

/-!
# klogg: `KloggApp` (src/app/kloggapp.h)

A shallow embedding of the window manager of klogg's application object:
the owned window list `mainWindows_`, the activation stack `activeWindows_`
of weak references, the lazily created `session_`, and the operations
`reloadSession`, `newWindow`, `loadFileNonInteractive`, `onWindowActivated`,
`exitApplication` and `sendFilesToPrimaryInstance`.

Conventions of the embedding:

* a window object is named by the number of its construction, so a pointer
  is never reused; a `QPointer` to a window reads null once the window is in
  `destroyed`;
* every call the manager makes on a collaborator (a window, the session, a
  configuration store, a timer, the instance transport, the log) is appended
  to a chronological trace, so that ordering properties can be stated;
* an operation whose C++ behaviour would be undefined (a null `session_`
  dereferenced, `top()` or `back()` of an empty container, a call through a
  null `QPointer` or through a raw pointer to a destroyed window, a read of
  a destroyed vector) returns `none`;
* the application runs on one event loop, so each operation, each slot and
  each destruction of a window is one atomic event (`Op`);
* the classes `MainWindow`, `Session`, `WindowSession`, the function
  `generateIdFromUuid` and the macro `GLOGG_VERSION` are not part of the
  header; what they return is a parameter (`Env`), and what they are asked to
  do is recorded in the trace;
* a reference to a vector of file names is the address of the vector; the
  vectors alive are passed explicitly (`Vectors`), so that a read through a
  reference to a destroyed vector is visible;
* the block under `Q_OS_WIN`, the logger set-up and the version check do not
  touch the window manager and are left out.
-/

namespace Klogg

/-! ## Data model -/

/-- Strings of the program (`QString`). -/
abbrev QString := String

/-- Identity of a `MainWindow` object (the value of a `MainWindow*`): the
    n-th object constructed by `new MainWindow` is number n. -/
abbrev WindowId := Nat

/-- Modelled from the spec: `WindowSession` is declared in session.h, which
    is absent; the spec describes it as a per-window fragment carrying a
    unique identifier (and a reference to the one shared session, which is
    not represented because the manager holds a single session). -/
structure WindowSession where
  windowId : QString
  deriving DecidableEq, Repr

/-- Modelled from the spec: `Session` is declared in session.h, which is
    absent; the spec describes it as an ordered sequence of window
    fragments together with a boolean exit-requested flag. -/
structure Session where
  windowSessions : List WindowSession
  exitRequested : Bool
  deriving DecidableEq, Repr

/-- The `QVariant` values the program stores. -/
inductive QVariant where
  | string (s : QString)
  | stringList (l : List QString)
  deriving DecidableEq, Repr

/-- A `QVariantMap`: its entries in key order (keys compared character by
    character), one per key. -/
abbrev QVariantMap := List (QString × QVariant)

/-- Insertion `QVariantMap::insert( key, value )`: replaces the value of an
    existing key, otherwise inserts at the key's sorted position. -/
def QVariantMap.insert : QVariantMap → QString → QVariant → QVariantMap
  | [], key, value => [(key, value)]
  | (k, v) :: rest, key, value =>
    if key = k then (key, value) :: rest
    else if key.toList < k.toList then (key, value) :: (k, v) :: rest
    else (k, v) :: QVariantMap.insert rest key value

/-- Lookup `QVariantMap::value( key )`. -/
def QVariantMap.value (m : QVariantMap) (key : QString) : Option QVariant :=
  (m.find? (fun e => e.1 = key)).map Prod.snd

/-- The three signals of a window that `newWindow` connects. -/
inductive Signal where
  | newWindow
  | windowActivated
  | exitRequested
  deriving DecidableEq, Repr

/-- The persistent stores of the application; `exitApplication` saves the
    first two. -/
inductive Store where
  | Configuration
  | VersionCheckerConfig
  | Session
  deriving DecidableEq, Repr

/-- The lines written with `LOG`. The line of `newWindow` prints the address
    of the local pointer variable, not the window, so it names no window. -/
inductive LogLine where
  | windowCreated
  | windowActivated (w : WindowId)
  | exitApplication
  deriving DecidableEq, Repr

/-- The address of a `std::vector<QString>` (the value of a reference to
    it); an address is never given twice. -/
abbrev VectorRef := Nat

/-- The vectors of file names alive at some moment, with their contents at
    that moment, and the next address to give. -/
structure Vectors where
  next : VectorRef
  live : List (VectorRef × List QString)
  deriving DecidableEq, Repr

/-- No vector. -/
def Vectors.empty : Vectors := { next := 0, live := [] }

/-- Construction of a vector holding `contents`; returns its address. -/
def Vectors.alloc (v : Vectors) (contents : List QString) : VectorRef × Vectors :=
  (v.next, { next := v.next + 1, live := (v.next, contents) :: v.live })

/-- Destruction of the vector at `ref`. -/
def Vectors.free (v : Vectors) (ref : VectorRef) : Vectors :=
  { v with live := v.live.filter (fun e => decide (e.1 ≠ ref)) }

/-- Assignment of `contents` to the vector at `ref`. -/
def Vectors.assign (v : Vectors) (ref : VectorRef) (contents : List QString) : Vectors :=
  { v with live := v.live.map (fun e => if e.1 = ref then (ref, contents) else e) }

/-- The contents of the vector at `ref`; `none` when it was destroyed. -/
def Vectors.read (v : Vectors) (ref : VectorRef) : Option (List QString) :=
  (v.live.find? (fun e => decide (e.1 = ref))).map Prod.snd

/-- What a `QTimer::singleShot` runs when it fires. -/
inductive TimerAction where
  | quit
  | sendFiles (filenames : VectorRef)
  deriving DecidableEq, Repr

/-- The calls the manager makes on its collaborators. -/
inductive Effect where
  | log (l : LogLine)
  | newMainWindow (w : WindowId) (session : WindowSession)
  | reloadGeometry (w : WindowId)
  | reloadSession (w : WindowId)
  | show_ (w : WindowId)
  | close (w : WindowId)
  | loadFileNonInteractive (w : WindowId) (file : QString)
  | setExitRequested (b : Bool)
  | save (store : Store)
  | singleShot (msec : Nat) (action : TimerAction)
  | sendMessage (data : QVariantMap) (timeout : Nat)
  deriving DecidableEq, Repr

/-- The parts the header takes from elsewhere: the version macro, the value
    a default-constructed `Session` holds, and the identifier returned by
    the n-th call of `generateIdFromUuid` (uuid.h). -/
structure Env where
  GLOGG_VERSION : QString
  makeSession : Session
  generateIdFromUuid : Nat → QString

/-- The state of the application object together with the part of the
    world it observes: how many windows were constructed, which were
    destroyed (their `QPointer` reads null), how many identifiers were
    drawn, which signals are connected, and the trace of calls made. -/
structure KloggApp where
  session_ : Option Session
  mainWindows_ : List WindowId
  /-- The stack `activeWindows_`; the head of the list is `top()`. -/
  activeWindows_ : List WindowId
  constructed : Nat
  destroyed : List WindowId
  uuidsDrawn : Nat
  connections : List (WindowId × Signal)
  trace : List Effect
  deriving DecidableEq, Repr

/-- The application object after its constructor: no session, no window. -/
def KloggApp.init : KloggApp :=
  { session_ := none, mainWindows_ := [], activeWindows_ := [], constructed := 0,
    destroyed := [], uuidsDrawn := 0, connections := [], trace := [] }

/-- Appends one call to the trace. -/
def KloggApp.emit (s : KloggApp) (e : Effect) : KloggApp :=
  { s with trace := s.trace ++ [e] }

/-- Test `QPointer::isNull` of a weak reference to window `w`. -/
def KloggApp.isNull (s : KloggApp) (w : WindowId) : Bool :=
  decide (w ∈ s.destroyed)

/-! ## Operations -/

/-- The guard `if ( !session_ ) session_ = std::make_shared<Session>()`. -/
def ensureSession (env : Env) (s : KloggApp) : KloggApp :=
  match s.session_ with
  | some _ => s
  | none => { s with session_ := some env.makeSession }

/-- The private `newWindow( WindowSession&& )`: constructs the window, appends
    it to `mainWindows_`, pushes it on `activeWindows_`, logs, and connects
    its three signals. -/
def newWindowFromSession (s : KloggApp) (session : WindowSession) : WindowId × KloggApp :=
  let window := s.constructed
  (window,
    { s with
      constructed := s.constructed + 1
      mainWindows_ := s.mainWindows_ ++ [window]
      activeWindows_ := window :: s.activeWindows_
      connections := s.connections ++
        [(window, Signal.newWindow), (window, Signal.windowActivated),
         (window, Signal.exitRequested)]
      trace := s.trace ++ [Effect.newMainWindow window session, Effect.log LogLine.windowCreated] })

/-- The public `newWindow()`. -/
def newWindow (env : Env) (s : KloggApp) : WindowId × KloggApp :=
  let s1 := ensureSession env s
  let id := env.generateIdFromUuid s1.uuidsDrawn
  newWindowFromSession { s1 with uuidsDrawn := s1.uuidsDrawn + 1 } { windowId := id }

/-- One iteration of the loop of `reloadSession`. -/
def reloadOne (s : KloggApp) (windowSession : WindowSession) : KloggApp :=
  let r := newWindowFromSession s windowSession
  ((r.2.emit (Effect.reloadGeometry r.1)).emit (Effect.reloadSession r.1)).emit (Effect.show_ r.1)

/-- The operation `reloadSession()`; `none` stands for undefined behaviour
    (a null `session_` or `back()` of an empty list). -/
def reloadSession (env : Env) (s : KloggApp) : Option (WindowId × KloggApp) :=
  let s1 := ensureSession env s
  match s1.session_ with
  | none => none
  | some session =>
    let s2 := session.windowSessions.foldl reloadOne s1
    let s3 :=
      if s2.mainWindows_.isEmpty then
        let r := newWindow env s2
        r.2.emit (Effect.show_ r.1)
      else s2
    match s3.mainWindows_.getLast? with
    | none => none
    | some w => some (w, s3)

/-- The loop `while ( !activeWindows_.empty() && activeWindows_.top().isNull() )
    activeWindows_.pop()`, on the stack. -/
def pruneLoop (destroyed : List WindowId) : List WindowId → List WindowId
  | [] => []
  | w :: rest => if w ∈ destroyed then pruneLoop destroyed rest else w :: rest

/-- The operation `loadFileNonInteractive( file )`; `none` stands for
    undefined behaviour (`top()` of an empty stack, or a call through a null
    `QPointer`). -/
def loadFileNonInteractive (env : Env) (s : KloggApp) (file : QString) : Option KloggApp :=
  let s1 := { s with activeWindows_ := pruneLoop s.destroyed s.activeWindows_ }
  let s2 := if s1.activeWindows_.isEmpty then (newWindow env s1).2 else s1
  match s2.activeWindows_ with
  | [] => none
  | w :: _ =>
    if s2.isNull w then none
    else some (s2.emit (Effect.loadFileNonInteractive w file))

/-- The slot `onWindowActivated( window )`. -/
def onWindowActivated (s : KloggApp) (window : WindowId) : KloggApp :=
  let s1 := s.emit (Effect.log (LogLine.windowActivated window))
  { s1 with activeWindows_ := window :: s1.activeWindows_ }

/-- The loop `for ( auto window : mainWindows_ ) window->close()` of
    `exitApplication`, over the windows still to visit. The elements are raw
    pointers: `none` stands for the call of `close()` on a window that was
    destroyed (a dangling pointer). -/
def closeLoop : KloggApp → List WindowId → Option KloggApp
  | s, [] => some s
  | s, window :: rest =>
    if window ∈ s.destroyed then none
    else closeLoop (s.emit (Effect.close window)) rest

/-- The slot `exitApplication()`; `none` stands for undefined behaviour: the
    dereference of a null `session_`, or `close()` called through a pointer
    of `mainWindows_` to a destroyed window. -/
def exitApplication (s : KloggApp) : Option KloggApp :=
  let s0 := s.emit (Effect.log LogLine.exitApplication)
  match s0.session_ with
  | none => none
  | some session =>
    let s1 := { s0 with session_ := some { session with exitRequested := true } }
    let s2 := s1.emit (Effect.setExitRequested true)
    let s3 := { s2 with mainWindows_ := s2.mainWindows_.reverse }
    match closeLoop s3 s3.mainWindows_ with
    | none => none
    | some s4 =>
      let s5 := s4.emit (Effect.save Store.Configuration)
      let s6 := s5.emit (Effect.save Store.VersionCheckerConfig)
      some (s6.emit (Effect.singleShot 100 TimerAction.quit))

/-- The call `sendFilesToPrimaryInstance( filenames )`: it only arms a timer
    of 100 whose body is `sendFilesTimeout`. The parameter is a reference and
    the timer body captures it by reference (`[&filenames, this]`), so what is
    kept is the address of the caller's vector, not its contents. -/
def sendFilesToPrimaryInstance (s : KloggApp) (filenames : VectorRef) : KloggApp :=
  s.emit (Effect.singleShot 100 (TimerAction.sendFiles filenames))

/-- The loop `for ( filename : filenames ) filesToOpen.append( filename )`. -/
def filesToOpen (filenames : List QString) : List QString :=
  filenames.foldl (fun acc filename => acc ++ [filename]) []

/-- The message built by the timer body of `sendFilesToPrimaryInstance`. -/
def messageData (env : Env) (filenames : List QString) : QVariantMap :=
  let data : QVariantMap := []
  let data := data.insert "version" (QVariant.string env.GLOGG_VERSION)
  data.insert "files" (QVariant.stringList (filesToOpen filenames))

/-- The timer body of `sendFilesToPrimaryInstance`, run when the timer fires
    and the vectors alive are `vectors`: reads the captured reference (`none`
    stands for the read of a destroyed vector), builds the message, sends it
    with a timeout of 5000 (the binary envelope is represented by the
    document it encodes; `sent` is the result of `sendMessage`, which the
    code discards), then arms the quit timer of 100. -/
def sendFilesTimeout (env : Env) (s : KloggApp) (vectors : Vectors) (filenames : VectorRef)
    (sent : Bool) : Option KloggApp :=
  match vectors.read filenames with
  | none => none
  | some contents =>
    let s1 := s.emit (Effect.sendMessage (messageData env contents) 5000)
    let _discarded := sent
    some (s1.emit (Effect.singleShot 100 TimerAction.quit))

/-- The handler `event( QEvent* )` of the block `Q_OS_MAC` for a file-open
    event carrying `file` (the other events go to the base class). On the
    primary instance the file is loaded. On a secondary instance
    `sendFilesToPrimaryInstance( { openEvent->file() } )` is called with a
    temporary vector, which is destroyed when the call returns: the vectors
    alive afterwards are those alive before. -/
def event (env : Env) (isPrimary : Bool) (s : KloggApp) (vectors : Vectors) (file : QString) :
    Option (KloggApp × Vectors) :=
  if isPrimary then
    (loadFileNonInteractive env s file).map (fun s1 => (s1, vectors))
  else
    let temporary := vectors.alloc [file]
    let s1 := sendFilesToPrimaryInstance s temporary.1
    some (s1, temporary.2.free temporary.1)

/-! ## Events -/

/-- What can happen to the application object: a call of a public operation,
    a signal of a window, or the destruction of a window object. -/
inductive Op where
  | reloadSession
  | newWindow
  | loadFileNonInteractive (file : QString)
  | signalNewWindow (w : WindowId)
  | signalWindowActivated (w : WindowId)
  | signalExitRequested (w : WindowId)
  | destroy (w : WindowId)
  deriving DecidableEq, Repr

/-- A signal of `w` reaches its slot when it was connected and `w` exists. -/
def KloggApp.delivers (s : KloggApp) (w : WindowId) (sig : Signal) : Bool :=
  decide ((w, sig) ∈ s.connections) && !s.isNull w

/-- One event. A signal that cannot be delivered, and the destruction of a
    window that does not exist, leave the state as it is. -/
def step (env : Env) (s : KloggApp) : Op → Option KloggApp
  | Op.reloadSession => (reloadSession env s).map Prod.snd
  | Op.newWindow => some (newWindow env s).2
  | Op.loadFileNonInteractive file => loadFileNonInteractive env s file
  | Op.signalNewWindow w =>
    if s.delivers w Signal.newWindow then
      let r := newWindow env s
      some (r.2.emit (Effect.show_ r.1))
    else some s
  | Op.signalWindowActivated w =>
    if s.delivers w Signal.windowActivated then some (onWindowActivated s w) else some s
  | Op.signalExitRequested w =>
    if s.delivers w Signal.exitRequested then exitApplication s else some s
  | Op.destroy w =>
    if w < s.constructed ∧ w ∉ s.destroyed then some { s with destroyed := w :: s.destroyed }
    else some s

/-- A sequence of events, from `s`. -/
def run (env : Env) (s : KloggApp) : List Op → Option KloggApp
  | [] => some s
  | op :: ops => (step env s op).bind (fun s1 => run env s1 ops)

/-! ## Reading the trace -/

/-- The windows constructed, in the order of construction. -/
def createdOf (t : List Effect) : List WindowId :=
  t.filterMap (fun e => match e with | Effect.newMainWindow w _ => some w | _ => none)

/-- The windows on which `close()` was called, in the order of the calls. -/
def closesOf (t : List Effect) : List WindowId :=
  t.filterMap (fun e => match e with | Effect.close w => some w | _ => none)

/-- The windows pushed on the activation stack (on creation or on
    activation), in the order of the pushes. -/
def pushesOf (t : List Effect) : List WindowId :=
  t.filterMap (fun e => match e with
    | Effect.newMainWindow w _ => some w
    | Effect.log (LogLine.windowActivated w) => some w
    | _ => none)

/-- The non-interactive loads delegated to windows, in the order of the calls. -/
def loadsOf (t : List Effect) : List (WindowId × QString) :=
  t.filterMap (fun e => match e with | Effect.loadFileNonInteractive w f => some (w, f) | _ => none)

/-- The windows constructed together with the fragment each is bound to. -/
def bindingsOf (t : List Effect) : List (WindowId × WindowSession) :=
  t.filterMap (fun e => match e with | Effect.newMainWindow w ws => some (w, ws) | _ => none)

/-- Whether window `w` still exists, given the destroyed windows. -/
def alive (destroyed : List WindowId) (w : WindowId) : Bool :=
  !decide (w ∈ destroyed)

/-- The calls `exitApplication` makes when the tracked windows are `l`, in
    the order it makes them (read off its body). -/
def exitEffects (l : List WindowId) : List Effect :=
  [Effect.log LogLine.exitApplication, Effect.setExitRequested true] ++ l.reverse.map Effect.close
    ++ [Effect.save Store.Configuration, Effect.save Store.VersionCheckerConfig,
        Effect.singleShot 100 TimerAction.quit]

/-- The calls the loop of `reloadSession` makes for the fragments `l` when the
    next window to be constructed is number `base` (read off the loop body). -/
def reloadEffects : Nat → List WindowSession → List Effect
  | _, [] => []
  | base, ws :: rest =>
    [Effect.newMainWindow base ws, Effect.log LogLine.windowCreated, Effect.reloadGeometry base,
     Effect.reloadSession base, Effect.show_ base] ++ reloadEffects (base + 1) rest

/-! ## Sample inputs -/

/-- A sample environment. -/
def sampleEnv : Env :=
  { GLOGG_VERSION := "19.9"
    makeSession := { windowSessions := [], exitRequested := false }
    generateIdFromUuid := fun n => String.mk (List.replicate (n + 1) 'u') }

/-- A sample environment whose stored session holds three windows. -/
def savedEnv : Env :=
  { GLOGG_VERSION := "19.9"
    makeSession := { windowSessions := [⟨"A"⟩, ⟨"B"⟩, ⟨"C"⟩], exitRequested := false }
    generateIdFromUuid := fun n => String.mk (List.replicate (n + 1) 'u') }

/-- The state after `reloadSession` on a first run (no stored window). -/
def stateFirstRun : KloggApp :=
  { session_ := some { windowSessions := [], exitRequested := false }
    mainWindows_ := [0]
    activeWindows_ := [0]
    constructed := 1
    destroyed := []
    uuidsDrawn := 1
    connections := [(0, Signal.newWindow), (0, Signal.windowActivated), (0, Signal.exitRequested)]
    trace := [Effect.newMainWindow 0 ⟨"u"⟩, Effect.log LogLine.windowCreated, Effect.show_ 0] }

/-- The state after `reloadSession` when the stored session holds the three
    windows A, B, C. -/
def stateABC : KloggApp :=
  { session_ := some { windowSessions := [⟨"A"⟩, ⟨"B"⟩, ⟨"C"⟩], exitRequested := false }
    mainWindows_ := [0, 1, 2]
    activeWindows_ := [2, 1, 0]
    constructed := 3
    destroyed := []
    uuidsDrawn := 0
    connections :=
      [(0, Signal.newWindow), (0, Signal.windowActivated), (0, Signal.exitRequested),
       (1, Signal.newWindow), (1, Signal.windowActivated), (1, Signal.exitRequested),
       (2, Signal.newWindow), (2, Signal.windowActivated), (2, Signal.exitRequested)]
    trace :=
      [Effect.newMainWindow 0 ⟨"A"⟩, Effect.log LogLine.windowCreated, Effect.reloadGeometry 0,
       Effect.reloadSession 0, Effect.show_ 0,
       Effect.newMainWindow 1 ⟨"B"⟩, Effect.log LogLine.windowCreated, Effect.reloadGeometry 1,
       Effect.reloadSession 1, Effect.show_ 1,
       Effect.newMainWindow 2 ⟨"C"⟩, Effect.log LogLine.windowCreated, Effect.reloadGeometry 2,
       Effect.reloadSession 2, Effect.show_ 2] }

/-- The state after `reloadSession` on a first run and the destruction of the
    only window: the stack holds a stale entry. -/
def stateStale : KloggApp :=
  { stateFirstRun with destroyed := [0] }

/-- What holds in every state reached from `KloggApp.init`. -/
structure Inv (s : KloggApp) : Prop where
  destroyed_lt : ∀ w ∈ s.destroyed, w < s.constructed
  active_lt : ∀ w ∈ s.activeWindows_, w < s.constructed
  main_perm : s.mainWindows_.Perm (List.range s.constructed)
  session_some : 0 < s.constructed → s.session_.isSome = true
  created : createdOf s.trace = List.range s.constructed
  pushes : (pushesOf s.trace).reverse.filter (alive s.destroyed)
    = s.activeWindows_.filter (alive s.destroyed)
  conn : ∀ w sig, (w, sig) ∈ s.connections → w < s.constructed
  closed_lt : ∀ w ∈ closesOf s.trace, w < s.constructed
  main_ord : Effect.log LogLine.exitApplication ∉ s.trace →
    s.mainWindows_ = List.range s.constructed

/-! ## Facts about the pruning loop and the trace readers -/

theorem pruneLoop_filter (d l : List WindowId) :
    (pruneLoop d l).filter (alive d) = l.filter (alive d) := by
  induction l with
  | nil => rfl
  | cons w rest ih =>
    by_cases hw : w ∈ d
    · simpa [pruneLoop, hw, alive] using ih
    · simp [pruneLoop, hw]

theorem pruneLoop_subset (d l : List WindowId) : ∀ w ∈ pruneLoop d l, w ∈ l := by
  induction l with
  | nil => intro w hw; simp [pruneLoop] at hw
  | cons x rest ih =>
    intro w hw
    by_cases hx : x ∈ d
    · simp only [pruneLoop, hx, if_true] at hw
      exact List.mem_cons_of_mem _ (ih w hw)
    · simpa [pruneLoop, hx] using hw

theorem pruneLoop_top_live (d l : List WindowId) (w : WindowId) (rest : List WindowId)
    (h : pruneLoop d l = w :: rest) : w ∉ d := by
  induction l with
  | nil => simp [pruneLoop] at h
  | cons x xs ih =>
    by_cases hx : x ∈ d
    · simp only [pruneLoop, hx, if_true] at h
      exact ih h
    · simp only [pruneLoop, hx, if_false] at h
      have : x = w := (List.cons.inj h).1
      exact this ▸ hx

theorem pruneLoop_eq_nil_iff (d l : List WindowId) :
    pruneLoop d l = [] ↔ ∀ w ∈ l, w ∈ d := by
  induction l with
  | nil => simp [pruneLoop]
  | cons x xs ih =>
    by_cases hx : x ∈ d
    · simp [pruneLoop, hx, ih]
    · simp [pruneLoop, hx]

theorem filter_destroy (w : WindowId) (d l : List WindowId) :
    l.filter (alive (w :: d)) = (l.filter (alive d)).filter (fun x => decide (x ≠ w)) := by
  rw [List.filter_filter]
  congr 1
  funext x
  by_cases hx : x ∈ d <;> by_cases hw : x = w <;> simp [alive, hx, hw]

theorem createdOf_append (t u : List Effect) : createdOf (t ++ u) = createdOf t ++ createdOf u := by
  simp [createdOf, List.filterMap_append]

theorem closesOf_append (t u : List Effect) : closesOf (t ++ u) = closesOf t ++ closesOf u := by
  simp [closesOf, List.filterMap_append]

theorem pushesOf_append (t u : List Effect) : pushesOf (t ++ u) = pushesOf t ++ pushesOf u := by
  simp [pushesOf, List.filterMap_append]

theorem inv_init : Inv KloggApp.init := by
  constructor <;> simp [KloggApp.init, createdOf, pushesOf, closesOf]

theorem inv_emit {s : KloggApp} (h : Inv s) (e : Effect) (h1 : createdOf [e] = [])
    (h2 : pushesOf [e] = []) (h3 : closesOf [e] = []) : Inv (s.emit e) := by
  constructor
  · exact h.destroyed_lt
  · exact h.active_lt
  · exact h.main_perm
  · exact h.session_some
  · simp only [KloggApp.emit, createdOf_append, h1, List.append_nil]; exact h.created
  · simp only [KloggApp.emit, pushesOf_append, h2, List.append_nil]; exact h.pushes
  · exact h.conn
  · simp only [KloggApp.emit, closesOf_append, h3, List.append_nil]; exact h.closed_lt
  · intro hn
    exact h.main_ord (fun hm => hn (List.mem_append_left _ hm))

theorem ensureSession_isSome (env : Env) (s : KloggApp) :
    (ensureSession env s).session_.isSome = true := by
  unfold ensureSession
  cases hs : s.session_ <;> simp [hs]

theorem inv_ensureSession (env : Env) {s : KloggApp} (h : Inv s) : Inv (ensureSession env s) := by
  unfold ensureSession
  cases hs : s.session_ with
  | some x => simpa using h
  | none =>
    constructor
    · exact h.destroyed_lt
    · exact h.active_lt
    · exact h.main_perm
    · intro _; rfl
    · exact h.created
    · exact h.pushes
    · exact h.conn
    · exact h.closed_lt
    · exact h.main_ord

theorem inv_newWindowFromSession {s : KloggApp} (h : Inv s) (hs : s.session_.isSome = true)
    (ws : WindowSession) : Inv (newWindowFromSession s ws).2 := by
  have hc : s.constructed ∉ s.destroyed := fun hm => Nat.lt_irrefl _ (h.destroyed_lt _ hm)
  constructor
  · intro w hw
    exact Nat.lt_succ_of_lt (h.destroyed_lt w hw)
  · intro w hw
    simp only [newWindowFromSession, List.mem_cons] at hw
    rcases hw with rfl | hw
    · exact Nat.lt_succ_self _
    · exact Nat.lt_succ_of_lt (h.active_lt w hw)
  · simp only [newWindowFromSession, List.range_succ]
    exact h.main_perm.append_right _
  · intro _
    exact hs
  · simp only [newWindowFromSession, createdOf_append, h.created, List.range_succ]
    simp [createdOf]
  · have hp := h.pushes
    simp only [newWindowFromSession, pushesOf_append]
    simp only [pushesOf, List.filterMap_cons, List.filterMap_nil, List.reverse_append,
      List.reverse_cons, List.reverse_nil, List.nil_append, List.singleton_append]
    rw [List.filter_cons_of_pos (by simp [alive, hc]), List.filter_cons_of_pos (by simp [alive, hc])]
    exact congrArg _ hp
  · intro w sig hm
    simp only [newWindowFromSession, List.mem_append, List.mem_cons, Prod.mk.injEq,
      List.mem_nil_iff, or_false] at hm
    rcases hm with hm | ⟨rfl, _⟩ | ⟨rfl, _⟩ | ⟨rfl, _⟩
    · exact Nat.lt_succ_of_lt (h.conn w sig hm)
    · exact Nat.lt_succ_self _
    · exact Nat.lt_succ_self _
    · exact Nat.lt_succ_self _
  · intro w hw
    simp only [newWindowFromSession, closesOf_append] at hw
    have hnil : closesOf [Effect.newMainWindow s.constructed ws, Effect.log LogLine.windowCreated]
        = [] := rfl
    rw [hnil, List.append_nil] at hw
    exact Nat.lt_succ_of_lt (h.closed_lt w hw)
  · intro hn
    simp only [newWindowFromSession, List.range_succ]
    rw [h.main_ord (fun hm => hn (List.mem_append_left _ hm))]

theorem inv_drawUuid {s : KloggApp} (h : Inv s) (n : Nat) : Inv { s with uuidsDrawn := n } := by
  constructor
  · exact h.destroyed_lt
  · exact h.active_lt
  · exact h.main_perm
  · exact h.session_some
  · exact h.created
  · exact h.pushes
  · exact h.conn
  · exact h.closed_lt
  · exact h.main_ord

theorem inv_newWindow (env : Env) {s : KloggApp} (h : Inv s) : Inv (newWindow env s).2 := by
  exact inv_newWindowFromSession
    (inv_drawUuid (inv_ensureSession env h) ((ensureSession env s).uuidsDrawn + 1))
    (ensureSession_isSome env s) _

theorem newWindow_session_isSome (env : Env) (s : KloggApp) :
    (newWindow env s).2.session_.isSome = true := by
  simp only [newWindow, newWindowFromSession]
  exact ensureSession_isSome env s

theorem inv_reloadOne {s : KloggApp} (h : Inv s) (hs : s.session_.isSome = true)
    (ws : WindowSession) : Inv (reloadOne s ws) ∧ (reloadOne s ws).session_ = s.session_ := by
  refine ⟨?_, rfl⟩
  unfold reloadOne
  exact inv_emit (inv_emit (inv_emit (inv_newWindowFromSession h hs ws) _ (by rfl) (by rfl) (by rfl)) _
    (by rfl) (by rfl) (by rfl)) _ (by rfl) (by rfl) (by rfl)

theorem inv_foldl_reloadOne (l : List WindowSession) :
    ∀ {s : KloggApp}, Inv s → s.session_.isSome = true →
      Inv (l.foldl reloadOne s) ∧ (l.foldl reloadOne s).session_ = s.session_ := by
  induction l with
  | nil => intro s h _; exact ⟨h, rfl⟩
  | cons ws rest ih =>
    intro s h hs
    have h1 := inv_reloadOne h hs ws
    have h2 := ih h1.1 (h1.2 ▸ hs)
    exact ⟨h2.1, h2.2.trans h1.2⟩

theorem getLast?_of_ne_nil {α : Type} (l : List α) (h : l ≠ []) : ∃ w, l.getLast? = some w :=
  ⟨l.getLast h, List.getLast?_eq_getLast l h⟩

theorem newWindow_main (env : Env) (s : KloggApp) :
    (newWindow env s).2.mainWindows_ = s.mainWindows_ ++ [s.constructed] := by
  unfold newWindow ensureSession newWindowFromSession
  cases s.session_ <;> rfl

theorem newWindow_fst (env : Env) (s : KloggApp) : (newWindow env s).1 = s.constructed := by
  unfold newWindow ensureSession newWindowFromSession
  cases s.session_ <;> rfl

theorem newWindow_constructed (env : Env) (s : KloggApp) :
    (newWindow env s).2.constructed = s.constructed + 1 := by
  unfold newWindow ensureSession newWindowFromSession
  cases s.session_ <;> rfl

theorem newWindow_destroyed (env : Env) (s : KloggApp) :
    (newWindow env s).2.destroyed = s.destroyed := by
  unfold newWindow ensureSession newWindowFromSession
  cases s.session_ <;> rfl

theorem newWindow_active (env : Env) (s : KloggApp) :
    (newWindow env s).2.activeWindows_ = s.constructed :: s.activeWindows_ := by
  unfold newWindow ensureSession newWindowFromSession
  cases s.session_ <;> rfl

theorem newWindow_trace (env : Env) (s : KloggApp) :
    (newWindow env s).2.trace = s.trace ++
      [Effect.newMainWindow s.constructed ⟨env.generateIdFromUuid s.uuidsDrawn⟩,
       Effect.log LogLine.windowCreated] := by
  unfold newWindow ensureSession newWindowFromSession
  cases s.session_ <;> rfl

theorem newWindow_uuidsDrawn (env : Env) (s : KloggApp) :
    (newWindow env s).2.uuidsDrawn = s.uuidsDrawn + 1 := by
  unfold newWindow ensureSession newWindowFromSession
  cases s.session_ <;> rfl

theorem inv_reloadSession (env : Env) {s : KloggApp} (h : Inv s) :
    ∃ w s1, reloadSession env s = some (w, s1) ∧ Inv s1 := by
  unfold reloadSession
  have h1 := inv_ensureSession env h
  have hs1 := ensureSession_isSome env s
  cases hsess : (ensureSession env s).session_ with
  | none => rw [hsess] at hs1; simp at hs1
  | some session =>
    have h2 := (inv_foldl_reloadOne session.windowSessions h1 hs1).1
    simp only [hsess]
    by_cases he : (session.windowSessions.foldl reloadOne (ensureSession env s)).mainWindows_.isEmpty
        = true
    · simp only [he, if_true]
      have h3 := inv_emit (inv_newWindow env h2)
        (Effect.show_ (newWindow env (session.windowSessions.foldl reloadOne
          (ensureSession env s))).1) (by rfl) (by rfl) (by rfl)
      obtain ⟨w, hw⟩ := getLast?_of_ne_nil
        ((newWindow env (session.windowSessions.foldl reloadOne
          (ensureSession env s))).2.emit (Effect.show_ (newWindow env
            (session.windowSessions.foldl reloadOne (ensureSession env s))).1)).mainWindows_
        (by simp [KloggApp.emit, newWindow_main])
      rw [hw]
      exact ⟨w, _, rfl, h3⟩
    · simp only [he]
      obtain ⟨w, hw⟩ := getLast?_of_ne_nil
        (session.windowSessions.foldl reloadOne (ensureSession env s)).mainWindows_
        (by intro hnil; rw [hnil] at he; simp at he)
      simp only [Bool.false_eq_true, if_false, hw]
      exact ⟨w, _, rfl, h2⟩

theorem inv_prune {s : KloggApp} (h : Inv s) :
    Inv { s with activeWindows_ := pruneLoop s.destroyed s.activeWindows_ } := by
  constructor
  · exact h.destroyed_lt
  · intro w hw
    exact h.active_lt w (pruneLoop_subset _ _ w hw)
  · exact h.main_perm
  · exact h.session_some
  · exact h.created
  · show _ = (pruneLoop s.destroyed s.activeWindows_).filter (alive s.destroyed)
    rw [pruneLoop_filter]
    exact h.pushes
  · exact h.conn
  · exact h.closed_lt
  · exact h.main_ord

theorem loadFile_live (env : Env) {s : KloggApp} {w : WindowId} {rest : List WindowId}
    (h : pruneLoop s.destroyed s.activeWindows_ = w :: rest) (file : QString) :
    loadFileNonInteractive env s file =
      some (KloggApp.emit { s with activeWindows_ := pruneLoop s.destroyed s.activeWindows_ }
        (Effect.loadFileNonInteractive w file)) := by
  have hw := pruneLoop_top_live _ _ _ _ h
  unfold loadFileNonInteractive
  simp [h, KloggApp.isNull, hw]

theorem loadFile_none (env : Env) {s : KloggApp}
    (h : pruneLoop s.destroyed s.activeWindows_ = []) (hc : s.constructed ∉ s.destroyed)
    (file : QString) :
    loadFileNonInteractive env s file =
      some (KloggApp.emit (newWindow env { s with activeWindows_ := [] }).2
        (Effect.loadFileNonInteractive s.constructed file)) := by
  unfold loadFileNonInteractive
  simp [h, KloggApp.isNull, newWindow_active, newWindow_destroyed, hc]

theorem inv_loadFile (env : Env) {s : KloggApp} (h : Inv s) (file : QString) :
    ∃ s1, loadFileNonInteractive env s file = some s1 ∧ Inv s1 := by
  have hp := inv_prune h
  cases hl : pruneLoop s.destroyed s.activeWindows_ with
  | nil =>
    have hc : s.constructed ∉ s.destroyed := fun hm => Nat.lt_irrefl _ (h.destroyed_lt _ hm)
    refine ⟨_, loadFile_none env hl hc file, ?_⟩
    rw [hl] at hp
    exact inv_emit (inv_newWindow env hp) _ (by rfl) (by rfl) (by rfl)
  | cons w rest =>
    refine ⟨_, loadFile_live env hl file, ?_⟩
    exact inv_emit hp _ (by rfl) (by rfl) (by rfl)

theorem inv_onWindowActivated {s : KloggApp} (h : Inv s) {w : WindowId}
    (hw : w < s.constructed) : Inv (onWindowActivated s w) := by
  constructor
  · exact h.destroyed_lt
  · intro x hx
    simp only [onWindowActivated, KloggApp.emit, List.mem_cons] at hx
    rcases hx with rfl | hx
    · exact hw
    · exact h.active_lt x hx
  · exact h.main_perm
  · exact h.session_some
  · simp only [onWindowActivated, KloggApp.emit, createdOf_append]
    simpa [createdOf] using h.created
  · have hp := h.pushes
    simp only [onWindowActivated, KloggApp.emit, pushesOf_append]
    simp only [pushesOf, List.filterMap_cons, List.filterMap_nil, List.reverse_append,
      List.reverse_cons, List.reverse_nil, List.nil_append, List.singleton_append]
    cases ha : alive s.destroyed w
    · rw [List.filter_cons_of_neg (by simp [ha]), List.filter_cons_of_neg (by simp [ha])]
      exact hp
    · rw [List.filter_cons_of_pos ha, List.filter_cons_of_pos ha]
      exact congrArg _ hp
  · exact h.conn
  · intro x hx
    simp only [onWindowActivated, KloggApp.emit, closesOf_append] at hx
    have hnil : closesOf [Effect.log (LogLine.windowActivated w)] = [] := rfl
    rw [hnil, List.append_nil] at hx
    exact h.closed_lt x hx
  · intro hn
    exact h.main_ord (fun hm => hn (by
      simp only [onWindowActivated, KloggApp.emit]
      exact List.mem_append_left _ hm))

theorem closeLoop_eq (l : List WindowId) :
    ∀ s : KloggApp, (∀ w ∈ l, w ∉ s.destroyed) →
      closeLoop s l = some { s with trace := s.trace ++ l.map Effect.close } := by
  induction l with
  | nil => intro s _; simp [closeLoop]
  | cons w rest ih =>
    intro s hl
    have hw : w ∉ s.destroyed := hl w (List.mem_cons_self _ _)
    have hrest : ∀ x ∈ rest, x ∉ (s.emit (Effect.close w)).destroyed :=
      fun x hx => hl x (List.mem_cons_of_mem _ hx)
    rw [closeLoop, if_neg hw, ih _ hrest]
    simp [KloggApp.emit]

theorem closeLoop_some (l : List WindowId) :
    ∀ s s1 : KloggApp, closeLoop s l = some s1 → ∀ w ∈ l, w ∉ s.destroyed := by
  induction l with
  | nil => intro s s1 _ w hw; simp at hw
  | cons x rest ih =>
    intro s s1 h w hw
    by_cases hx : x ∈ s.destroyed
    · rw [closeLoop, if_pos hx] at h
      simp at h
    · rw [closeLoop, if_neg hx] at h
      rcases List.mem_cons.mp hw with rfl | hw
      · exact hx
      · exact ih _ _ h w hw

theorem exitApplication_eq {s : KloggApp} {session : Session} (hs : s.session_ = some session)
    (hlive : ∀ w ∈ s.mainWindows_, w ∉ s.destroyed) :
    exitApplication s = some
      { s with
        session_ := some { session with exitRequested := true }
        mainWindows_ := s.mainWindows_.reverse
        trace := s.trace ++ exitEffects s.mainWindows_ } := by
  unfold exitApplication
  have h0 : (s.emit (Effect.log LogLine.exitApplication)).session_ = some session := hs
  simp only [h0]
  rw [closeLoop_eq _ _ (by
    intro w hw
    exact hlive w (List.mem_reverse.mp hw))]
  simp [KloggApp.emit, exitEffects]

theorem exitApplication_some {s s1 : KloggApp} (h : exitApplication s = some s1) :
    (∃ session, s.session_ = some session) ∧ ∀ w ∈ s.mainWindows_, w ∉ s.destroyed := by
  unfold exitApplication at h
  cases hs : s.session_ with
  | none =>
    have h0 : (s.emit (Effect.log LogLine.exitApplication)).session_ = none := hs
    simp [h0] at h
  | some session =>
    have h0 : (s.emit (Effect.log LogLine.exitApplication)).session_ = some session := hs
    simp only [h0] at h
    refine ⟨⟨session, rfl⟩, ?_⟩
    split at h
    · simp at h
    · rename_i s4 hc
      intro w hw
      exact closeLoop_some _ _ _ hc w (List.mem_reverse.mpr hw)

theorem exitApplication_dangling {s : KloggApp} {w : WindowId} (hw : w ∈ s.mainWindows_)
    (hd : w ∈ s.destroyed) : exitApplication s = none := by
  cases h : exitApplication s with
  | none => rfl
  | some s1 => exact absurd hd ((exitApplication_some h).2 w hw)

theorem createdOf_exitEffects (l : List WindowId) : createdOf (exitEffects l) = [] := by
  simp [exitEffects, createdOf]

theorem pushesOf_exitEffects (l : List WindowId) : pushesOf (exitEffects l) = [] := by
  simp [exitEffects, pushesOf]

theorem closesOf_exitEffects (l : List WindowId) : closesOf (exitEffects l) = l.reverse := by
  have hm : ∀ m : List WindowId, closesOf (m.map Effect.close) = m := by
    intro m
    induction m with
    | nil => rfl
    | cons x xs ih => simpa [closesOf] using ih
  rw [exitEffects, closesOf_append, closesOf_append, hm]
  simp [closesOf]

theorem inv_exitApplication {s s1 : KloggApp} (h : Inv s) (he : exitApplication s = some s1) :
    Inv s1 := by
  obtain ⟨⟨session, hsess⟩, hlive⟩ := exitApplication_some he
  rw [exitApplication_eq hsess hlive] at he
  rw [← Option.some.inj he]
  exact by
    constructor
    · exact h.destroyed_lt
    · exact h.active_lt
    · exact (List.reverse_perm _).trans h.main_perm
    · intro _; rfl
    · simp only [createdOf_append, createdOf_exitEffects, List.append_nil]
      exact h.created
    · simp only [pushesOf_append, pushesOf_exitEffects, List.append_nil]
      exact h.pushes
    · exact h.conn
    · intro w hw
      simp only [closesOf_append, closesOf_exitEffects, List.mem_append, List.mem_reverse] at hw
      rcases hw with hw | hw
      · exact h.closed_lt w hw
      · exact List.mem_range.mp ((h.main_perm.mem_iff).mp hw)
    · intro hn
      exact absurd (List.mem_append_right _ (by simp [exitEffects])) hn

theorem inv_destroy {s : KloggApp} (h : Inv s) {w : WindowId} (hw : w < s.constructed) :
    Inv { s with destroyed := w :: s.destroyed } := by
  constructor
  · intro x hx
    simp only [List.mem_cons] at hx
    rcases hx with rfl | hx
    · exact hw
    · exact h.destroyed_lt x hx
  · exact h.active_lt
  · exact h.main_perm
  · exact h.session_some
  · exact h.created
  · show List.filter (alive (w :: s.destroyed)) _ = List.filter (alive (w :: s.destroyed)) _
    rw [filter_destroy, filter_destroy, h.pushes]
  · exact h.conn
  · exact h.closed_lt
  · exact h.main_ord

theorem delivers_lt {s : KloggApp} (h : Inv s) {w : WindowId} {sig : Signal}
    (hd : s.delivers w sig = true) : w < s.constructed := by
  simp only [KloggApp.delivers, Bool.and_eq_true, decide_eq_true_eq] at hd
  exact h.conn w sig hd.1

theorem inv_step (env : Env) {s s1 : KloggApp} (h : Inv s) (op : Op)
    (hs : step env s op = some s1) : Inv s1 := by
  cases op with
  | reloadSession =>
    obtain ⟨w, s2, hr, hi⟩ := inv_reloadSession env h
    simp only [step, hr, Option.map_some', Option.some.injEq] at hs
    exact hs ▸ hi
  | newWindow =>
    simp only [step, Option.some.injEq] at hs
    exact hs ▸ inv_newWindow env h
  | loadFileNonInteractive file =>
    obtain ⟨s2, hl, hi⟩ := inv_loadFile env h file
    simp only [step, hl, Option.some.injEq] at hs
    exact hs ▸ hi
  | signalNewWindow w =>
    simp only [step] at hs
    split at hs
    · exact (Option.some.inj hs) ▸ inv_emit (inv_newWindow env h)
        (Effect.show_ (newWindow env s).1) (by rfl) (by rfl) (by rfl)
    · exact (Option.some.inj hs) ▸ h
  | signalWindowActivated w =>
    simp only [step] at hs
    split at hs
    · rename_i hd
      exact (Option.some.inj hs) ▸ inv_onWindowActivated h (delivers_lt h hd)
    · exact (Option.some.inj hs) ▸ h
  | signalExitRequested w =>
    simp only [step] at hs
    split at hs
    · exact inv_exitApplication h hs
    · exact (Option.some.inj hs) ▸ h
  | destroy w =>
    simp only [step] at hs
    split at hs
    · rename_i hd
      exact (Option.some.inj hs) ▸ inv_destroy h hd.1
    · exact (Option.some.inj hs) ▸ h

theorem inv_run (env : Env) (ops : List Op) :
    ∀ {s s1 : KloggApp}, Inv s → run env s ops = some s1 → Inv s1 := by
  induction ops with
  | nil =>
    intro s s1 h hr
    simp only [run, Option.some.injEq] at hr
    exact hr ▸ h
  | cons op rest ih =>
    intro s s1 h hr
    cases hstep : step env s op with
    | none => simp [run, hstep] at hr
    | some s2 =>
      simp only [run, hstep, Option.some_bind] at hr
      exact ih (inv_step env h op hstep) hr

theorem inv_of_run (env : Env) {ops : List Op} {s : KloggApp}
    (h : run env KloggApp.init ops = some s) : Inv s :=
  inv_run env ops inv_init h

theorem loadsOf_append (t u : List Effect) : loadsOf (t ++ u) = loadsOf t ++ loadsOf u := by
  simp [loadsOf, List.filterMap_append]

/-! ## C1, C2, C10: the activation stack -/

/-- C1: in every state reached from the initial one by a sequence of events
    and for every path, one
    call of `loadFileNonInteractive` returns (no `top()` of an empty stack, no
    call through a null pointer), creates exactly one window when the stack
    holds no live entry and none otherwise, and delegates exactly one load of
    that path, to a window `w` that was created, is in `mainWindows_`, is on top
    of the stack and has not been destroyed. -/
theorem C1_loadFileNonInteractive_targets_live_window (env : Env) (ops : List Op)
    (s : KloggApp) (file : QString) (hrun : run env KloggApp.init ops = some s) :
    ∃ s1 w, loadFileNonInteractive env s file = some s1 ∧
      ((∀ x ∈ s.activeWindows_, x ∈ s.destroyed) →
        s1.constructed = s.constructed + 1 ∧ s1.mainWindows_ = s.mainWindows_ ++ [w] ∧
        createdOf s1.trace = createdOf s.trace ++ [w]) ∧
      ((∃ x ∈ s.activeWindows_, x ∉ s.destroyed) →
        s1.constructed = s.constructed ∧ s1.mainWindows_ = s.mainWindows_ ∧
        createdOf s1.trace = createdOf s.trace) ∧
      s1.constructed ≤ s.constructed + 1 ∧
      loadsOf s1.trace = loadsOf s.trace ++ [(w, file)] ∧
      s1.trace.getLast? = some (Effect.loadFileNonInteractive w file) ∧
      s1.activeWindows_.head? = some w ∧
      w < s1.constructed ∧ w ∈ s1.mainWindows_ ∧ w ∉ s1.destroyed := by
  have h := inv_of_run env hrun
  have hc : s.constructed ∉ s.destroyed := fun hm => Nat.lt_irrefl _ (h.destroyed_lt _ hm)
  obtain ⟨s1, hload, h1⟩ := inv_loadFile env h file
  cases hl : pruneLoop s.destroyed s.activeWindows_ with
  | nil =>
    have hall := (pruneLoop_eq_nil_iff _ _).mp hl
    have heq := loadFile_none env hl hc file
    rw [hload] at heq
    have hs1 := Option.some.inj heq
    have hcon : s1.constructed = s.constructed + 1 := by
      rw [hs1]; simp [KloggApp.emit, newWindow_constructed]
    have hmain : s1.mainWindows_ = s.mainWindows_ ++ [s.constructed] := by
      rw [hs1]; simp [KloggApp.emit, newWindow_main]
    have htrace : s1.trace = s.trace ++
        [Effect.newMainWindow s.constructed ⟨env.generateIdFromUuid s.uuidsDrawn⟩,
         Effect.log LogLine.windowCreated] ++ [Effect.loadFileNonInteractive s.constructed file] := by
      rw [hs1]; simp [KloggApp.emit, newWindow_trace]
    refine ⟨s1, s.constructed, hload, ?_, ?_, ?_, ?_, ?_, ?_, ?_, ?_, ?_⟩
    · intro _
      refine ⟨hcon, hmain, ?_⟩
      rw [htrace, createdOf_append, createdOf_append]
      simp [createdOf]
    · rintro ⟨x, hx, hxd⟩
      exact absurd (hall x hx) hxd
    · omega
    · rw [htrace, loadsOf_append, loadsOf_append]
      simp [loadsOf]
    · rw [htrace]; simp
    · rw [hs1]; simp [KloggApp.emit, newWindow_active]
    · rw [hcon]; exact Nat.lt_succ_self _
    · rw [hmain]; simp
    · rw [hs1]; simpa [KloggApp.emit, newWindow_destroyed] using hc
  | cons w rest =>
    have hw := pruneLoop_top_live _ _ _ _ hl
    have hwin := pruneLoop_subset _ _ w (by rw [hl]; exact List.mem_cons_self _ _)
    have heq := loadFile_live env hl file
    rw [hload] at heq
    have hs1 := Option.some.inj heq
    have hcon : s1.constructed = s.constructed := by rw [hs1]; rfl
    have hmain : s1.mainWindows_ = s.mainWindows_ := by rw [hs1]; rfl
    have htrace : s1.trace = s.trace ++ [Effect.loadFileNonInteractive w file] := by
      rw [hs1]; rfl
    have hlt : w < s.constructed := h.active_lt w hwin
    refine ⟨s1, w, hload, ?_, ?_, ?_, ?_, ?_, ?_, ?_, ?_, ?_⟩
    · intro hall
      exact absurd (hall w hwin) hw
    · intro _
      refine ⟨hcon, hmain, ?_⟩
      rw [htrace, createdOf_append]
      simp [createdOf]
    · omega
    · rw [htrace, loadsOf_append]
      simp [loadsOf]
    · rw [htrace]; simp
    · rw [hs1]; simp [KloggApp.emit, hl]
    · rw [hcon]; exact hlt
    · rw [hmain]
      exact (h.main_perm.mem_iff).mpr (List.mem_range.mpr hlt)
    · rw [hs1]; exact hw

/-- C10: in every state reached from the initial one by public operations
    and window events, the session is present as soon as one window has been
    constructed; hence whenever the signal `exitRequested` of a window is
    delivered, `exitApplication` finds `session_` non-null when it sets the
    exit-requested flag: it returns with the flag set unless a tracked window
    was destroyed, and in a state with a window that is the only way it can
    be undefined. -/
theorem C10_session_present_once_a_window_exists (env : Env) (ops : List Op) (s : KloggApp)
    (hrun : run env KloggApp.init ops = some s) :
    (0 < s.constructed → s.session_.isSome = true) ∧
    (∀ w, s.delivers w Signal.exitRequested = true → s.session_.isSome = true) ∧
    (∀ w, s.delivers w Signal.exitRequested = true →
      (∀ x ∈ s.mainWindows_, x ∉ s.destroyed) →
      ∃ s1, exitApplication s = some s1 ∧
        s1.session_.map Session.exitRequested = some true) ∧
    (0 < s.constructed → exitApplication s = none →
      ∃ x, x ∈ s.mainWindows_ ∧ x ∈ s.destroyed) ∧
    exitApplication KloggApp.init = none := by
  have h := inv_of_run env hrun
  refine ⟨h.session_some, ?_, ?_, ?_, rfl⟩
  · intro w hd
    exact h.session_some (Nat.lt_of_le_of_lt (Nat.zero_le _) (delivers_lt h hd))
  · intro w hd hlive
    have hs := h.session_some (Nat.lt_of_le_of_lt (Nat.zero_le _) (delivers_lt h hd))
    cases hsess : s.session_ with
    | none => rw [hsess] at hs; simp at hs
    | some session => exact ⟨_, exitApplication_eq hsess hlive, rfl⟩
  · intro hwin hnone
    have hs := h.session_some hwin
    cases hsess : s.session_ with
    | none => rw [hsess] at hs; simp at hs
    | some session =>
      by_contra hno
      have hlive : ∀ x ∈ s.mainWindows_, x ∉ s.destroyed := by
        intro x hx hd
        exact hno ⟨x, hx, hd⟩
      rw [exitApplication_eq hsess hlive] at hnone
      simp at hnone

/-! ## C3, C4, C5: shutdown -/

theorem run_stateABC : run savedEnv KloggApp.init [Op.reloadSession] = some stateABC := by
  rfl

theorem run_stateFirstRun : run sampleEnv KloggApp.init [Op.reloadSession] = some stateFirstRun := by
  rfl

theorem count_exitEffects (e : Effect) (he : ∀ w, e ≠ Effect.close w) (l : List WindowId) :
    (exitEffects l).count e = (exitEffects []).count e := by
  have hm : ∀ m : List WindowId, (m.map Effect.close).count e = 0 := by
    intro m
    apply List.count_eq_zero_of_not_mem
    intro hmem
    obtain ⟨w, _, hw⟩ := List.mem_map.mp hmem
    exact he w hw.symm
  simp only [exitEffects, List.count_append, hm, List.reverse_nil, List.map_nil, List.count_nil,
    Nat.add_zero]

theorem no_save_before_close (l : List WindowId) (pre post : List Effect) (w : WindowId)
    (h : exitEffects l = pre ++ Effect.close w :: post) (st : Store) : Effect.save st ∉ pre := by
  intro hmem
  unfold exitEffects at h
  rcases List.append_eq_append_iff.mp h with ⟨a, _, ha⟩ | ⟨c, hc, _⟩
  · have : Effect.close w ∈ [Effect.save Store.Configuration,
        Effect.save Store.VersionCheckerConfig, Effect.singleShot 100 TimerAction.quit] := by
      rw [ha]; simp
    simp at this
  · have hin : Effect.save st ∈ [Effect.log LogLine.exitApplication, Effect.setExitRequested true]
        ++ l.reverse.map Effect.close := by
      rw [hc]; exact List.mem_append_left _ hmem
    simp at hin

/-- C3, as the code behaves: in a state reached from the initial one in which
    at least one window was created, no tracked window has been destroyed
    and `exitApplication` has not run yet, `mainWindows_` lists the windows
    in the order they were created, and `exitApplication` returns and calls
    `close()` on exactly these windows in the reverse of that order. -/
theorem C3_first_shutdown_closes_in_reverse_creation_order (env : Env) (ops : List Op)
    (s : KloggApp)
    (hrun : run env KloggApp.init ops = some s)
    (hfirst : Effect.log LogLine.exitApplication ∉ s.trace)
    (hlive : ∀ w ∈ s.mainWindows_, w ∉ s.destroyed)
    (hwin : 0 < s.constructed) :
    ∃ s1, exitApplication s = some s1 ∧
      s.mainWindows_ = createdOf s.trace ∧
      s1.trace = s.trace ++ exitEffects s.mainWindows_ ∧
      closesOf (s1.trace.drop s.trace.length) = (createdOf s.trace).reverse := by
  have h := inv_of_run env hrun
  have hs := h.session_some hwin
  cases hsess : s.session_ with
  | none => rw [hsess] at hs; simp at hs
  | some session =>
    have hmain : s.mainWindows_ = createdOf s.trace := by
      rw [h.main_ord hfirst, h.created]
    refine ⟨_, exitApplication_eq hsess hlive, hmain, rfl, ?_⟩
    simp only [List.drop_left, closesOf_exitEffects, hmain]

/-- C3 at creation order [A, B, C]: the windows 0, 1, 2 restored from the
    stored session are closed in the order 2, 1, 0. -/
theorem C3_witness_ABC :
    (∃ s1, exitApplication stateABC = some s1 ∧
      stateABC.mainWindows_ = createdOf stateABC.trace ∧
      s1.trace = stateABC.trace ++ exitEffects stateABC.mainWindows_ ∧
      closesOf (s1.trace.drop stateABC.trace.length) = (createdOf stateABC.trace).reverse) ∧
    createdOf stateABC.trace = [0, 1, 2] ∧
    (exitApplication stateABC).map (fun s1 => closesOf s1.trace) = some [2, 1, 0] :=
  ⟨C3_first_shutdown_closes_in_reverse_creation_order savedEnv [Op.reloadSession] stateABC
    run_stateABC (by decide) (by decide) (by decide), by decide, by decide⟩

/-- C3 fails as stated: the windows 0, 1, 2 are restored, a shutdown runs,
    window 3 is created, and a shutdown runs again. The windows were created
    in the order 0, 1, 2, 3 and none was destroyed, yet the second shutdown
    closes them in the order 3, 0, 1, 2, which is not the reverse. -/
theorem C3_counterexample_second_shutdown_order :
    ∃ s s1,
      run savedEnv KloggApp.init [Op.reloadSession, Op.signalExitRequested 0, Op.newWindow]
        = some s ∧
      createdOf s.trace = [0, 1, 2, 3] ∧
      s.destroyed = [] ∧
      exitApplication s = some s1 ∧
      closesOf (s1.trace.drop s.trace.length) = [3, 0, 1, 2] ∧
      closesOf (s1.trace.drop s.trace.length) ≠ (createdOf s.trace).reverse :=
  ⟨_, _, rfl, by decide, rfl, rfl, by decide, by decide⟩

/-- C4, as the code behaves: `exitApplication` has no guard against running
    twice. In a state reached from the initial one in which a window was
    created and no tracked window has been destroyed, a second invocation
    right after the first runs in full: it reverses `mainWindows_` back, calls
    `close()` on every tracked window again, and adds one more save of each
    store and one more quit timer, so two invocations make two of each; when
    `exitApplication` had not run before, the first closes the windows in the
    reverse of the creation order and the second in the creation order. -/
theorem C4_second_shutdown_runs_in_full (env : Env) (ops : List Op) (s : KloggApp)
    (hrun : run env KloggApp.init ops = some s)
    (hlive : ∀ w ∈ s.mainWindows_, w ∉ s.destroyed)
    (hwin : 0 < s.constructed) :
    ∃ s1 s2, exitApplication s = some s1 ∧ exitApplication s1 = some s2 ∧
      s1.trace = s.trace ++ exitEffects s.mainWindows_ ∧
      s2.trace = s1.trace ++ exitEffects s.mainWindows_.reverse ∧
      s2.mainWindows_ = s.mainWindows_ ∧
      closesOf (s1.trace.drop s.trace.length) = s.mainWindows_.reverse ∧
      closesOf (s2.trace.drop s1.trace.length) = s.mainWindows_ ∧
      (Effect.log LogLine.exitApplication ∉ s.trace →
        closesOf (s1.trace.drop s.trace.length) = (createdOf s.trace).reverse ∧
        closesOf (s2.trace.drop s1.trace.length) = createdOf s.trace) ∧
      (s2.trace.drop s.trace.length).count (Effect.save Store.Configuration) = 2 ∧
      (s2.trace.drop s.trace.length).count (Effect.save Store.VersionCheckerConfig) = 2 ∧
      (s2.trace.drop s.trace.length).count (Effect.singleShot 100 TimerAction.quit) = 2 ∧
      (s2.trace.drop s.trace.length).count (Effect.setExitRequested true) = 2 := by
  have h := inv_of_run env hrun
  have hs := h.session_some hwin
  cases hsess : s.session_ with
  | none => rw [hsess] at hs; simp at hs
  | some session =>
    have hlive2 : ∀ w ∈ s.mainWindows_.reverse, w ∉ s.destroyed :=
      fun w hw => hlive w (List.mem_reverse.mp hw)
    refine ⟨_, _, exitApplication_eq hsess hlive, exitApplication_eq rfl hlive2, rfl, rfl,
      ?_, ?_, ?_, ?_, ?_, ?_, ?_, ?_⟩
    · simp
    · simp only [List.drop_left, closesOf_exitEffects]
    · simp only [List.drop_left, closesOf_exitEffects, List.reverse_reverse]
    · intro hfirst
      have hmain : s.mainWindows_ = createdOf s.trace := by
        rw [h.main_ord hfirst, h.created]
      simp only [List.drop_left, closesOf_exitEffects, List.reverse_reverse]
      exact ⟨congrArg List.reverse hmain, hmain⟩
    all_goals
      simp only [List.append_assoc, List.drop_left, List.count_append]
      rw [count_exitEffects _ (by intro w; simp) s.mainWindows_,
        count_exitEffects _ (by intro w; simp) s.mainWindows_.reverse]
      decide

/-- C4 at the state holding the windows A, B, C: the first shutdown closes
    2, 1, 0 and the second 0, 1, 2. -/
theorem C4_witness_ABC :
    (∃ s1 s2, exitApplication stateABC = some s1 ∧ exitApplication s1 = some s2 ∧
      closesOf (s1.trace.drop stateABC.trace.length) = [2, 1, 0] ∧
      closesOf (s2.trace.drop s1.trace.length) = [0, 1, 2] ∧
      (s2.trace.drop stateABC.trace.length).count (Effect.save Store.Configuration) = 2 ∧
      (s2.trace.drop stateABC.trace.length).count (Effect.singleShot 100 TimerAction.quit) = 2) :=
  by
    obtain ⟨s1, s2, h1, h2, _, _, _, h6, h7, _, h9, _, h11, _⟩ :=
      C4_second_shutdown_runs_in_full savedEnv [Op.reloadSession] stateABC run_stateABC
        (by decide) (by decide)
    exact ⟨s1, s2, h1, h2, h6, h7, h9, h11⟩

/-- C4 fails as stated: in the state reached by `reloadSession` on a first
    run, two exit requests of window 0 leave two saves of the configuration
    and two quit timers in the trace, and the second request changes the
    state. -/
theorem C4_counterexample_two_shutdowns :
    ∃ s1 s2, run sampleEnv KloggApp.init [Op.reloadSession, Op.signalExitRequested 0] = some s1 ∧
      run sampleEnv KloggApp.init
        [Op.reloadSession, Op.signalExitRequested 0, Op.signalExitRequested 0] = some s2 ∧
      s2 ≠ s1 ∧
      s1.trace.count (Effect.save Store.Configuration) = 1 ∧
      s2.trace.count (Effect.save Store.Configuration) = 2 ∧
      s2.trace.count (Effect.singleShot 100 TimerAction.quit) = 2 ∧
      s2.trace.count (Effect.close 0) = 2 :=
  ⟨_, _, rfl, rfl, by decide, by decide, by decide, by decide, by decide⟩

/-- C5, as the code behaves: when the session is present and no tracked
    window has been destroyed, one `exitApplication` logs, sets the
    exit-requested flag of the session, calls `close()` on every tracked
    window (last in `mainWindows_` first), saves `Configuration`, saves
    `VersionCheckerConfig` and arms the quit timer of 100, in this order and
    nothing else; no save precedes a `close()`, each of the two stores is
    saved once, and the session store is not saved by this function. -/
theorem C5_shutdown_effect_sequence (s : KloggApp) (session : Session)
    (hs : s.session_ = some session)
    (hlive : ∀ w ∈ s.mainWindows_, w ∉ s.destroyed) :
    ∃ s1, exitApplication s = some s1 ∧
      s1.session_ = some { session with exitRequested := true } ∧
      s1.trace = s.trace ++
        ([Effect.log LogLine.exitApplication, Effect.setExitRequested true]
          ++ s.mainWindows_.reverse.map Effect.close
          ++ [Effect.save Store.Configuration, Effect.save Store.VersionCheckerConfig,
              Effect.singleShot 100 TimerAction.quit]) ∧
      (∀ pre post w st, s1.trace.drop s.trace.length = pre ++ Effect.close w :: post →
        Effect.save st ∉ pre) ∧
      (s1.trace.drop s.trace.length).count (Effect.save Store.Configuration) = 1 ∧
      (s1.trace.drop s.trace.length).count (Effect.save Store.VersionCheckerConfig) = 1 ∧
      (s1.trace.drop s.trace.length).count (Effect.save Store.Session) = 0 ∧
      (s1.trace.drop s.trace.length).count (Effect.singleShot 100 TimerAction.quit) = 1 := by
  refine ⟨_, exitApplication_eq hs hlive, rfl, rfl, ?_, ?_, ?_, ?_, ?_⟩
  · intro pre post w st hsplit
    simp only [List.drop_left] at hsplit
    exact no_save_before_close _ pre post w hsplit st
  all_goals
    simp only [List.drop_left]
    rw [count_exitEffects _ (by intro w; simp) s.mainWindows_]
    decide

/-- C5 at the state holding the windows A, B, C. -/
theorem C5_witness_ABC :
    (∃ s1, exitApplication stateABC = some s1 ∧
      s1.session_ = some { windowSessions := [⟨"A"⟩, ⟨"B"⟩, ⟨"C"⟩], exitRequested := true } ∧
      s1.trace = stateABC.trace ++
        ([Effect.log LogLine.exitApplication, Effect.setExitRequested true]
          ++ stateABC.mainWindows_.reverse.map Effect.close
          ++ [Effect.save Store.Configuration, Effect.save Store.VersionCheckerConfig,
              Effect.singleShot 100 TimerAction.quit]) ∧
      (∀ pre post w st, s1.trace.drop stateABC.trace.length = pre ++ Effect.close w :: post →
        Effect.save st ∉ pre) ∧
      (s1.trace.drop stateABC.trace.length).count (Effect.save Store.Configuration) = 1 ∧
      (s1.trace.drop stateABC.trace.length).count (Effect.save Store.VersionCheckerConfig) = 1 ∧
      (s1.trace.drop stateABC.trace.length).count (Effect.save Store.Session) = 0 ∧
      (s1.trace.drop stateABC.trace.length).count (Effect.singleShot 100 TimerAction.quit) = 1) :=
  C5_shutdown_effect_sequence stateABC
    { windowSessions := [⟨"A"⟩, ⟨"B"⟩, ⟨"C"⟩], exitRequested := false } rfl (by decide)

/-- C5 fails as stated: after a shutdown of the state holding A, B, C the
    calls made are the log line, the flag, three closes, the saves of
    `Configuration` and `VersionCheckerConfig`, and the quit timer; the session
    store is saved nowhere in the trace. -/
theorem C5_counterexample_no_session_save :
    ∃ s1, run savedEnv KloggApp.init [Op.reloadSession, Op.signalExitRequested 2] = some s1 ∧
      s1.trace.drop stateABC.trace.length =
        [Effect.log LogLine.exitApplication, Effect.setExitRequested true,
         Effect.close 2, Effect.close 1, Effect.close 0,
         Effect.save Store.Configuration, Effect.save Store.VersionCheckerConfig,
         Effect.singleShot 100 TimerAction.quit] ∧
      Effect.save Store.Session ∉ s1.trace :=
  ⟨_, rfl, by decide, by decide⟩

/-! ## C6, C7: restoring the session -/

theorem foldl_reloadOne_spec (l : List WindowSession) : ∀ s : KloggApp,
    (l.foldl reloadOne s).trace = s.trace ++ reloadEffects s.constructed l ∧
    (l.foldl reloadOne s).mainWindows_ = s.mainWindows_ ++ List.range' s.constructed l.length ∧
    (l.foldl reloadOne s).constructed = s.constructed + l.length ∧
    (l.foldl reloadOne s).uuidsDrawn = s.uuidsDrawn ∧
    (l.foldl reloadOne s).session_ = s.session_ := by
  induction l with
  | nil => intro s; simp [reloadEffects]
  | cons ws rest ih =>
    intro s
    obtain ⟨h1, h2, h3, h4, h5⟩ := ih (reloadOne s ws)
    rw [List.foldl_cons, h1, h2, h3, h4, h5]
    simp only [reloadOne, newWindowFromSession, KloggApp.emit, reloadEffects, List.length_cons,
      List.range'_succ, List.append_assoc, List.singleton_append, List.cons_append,
      List.nil_append]
    refine ⟨trivial, trivial, ?_, trivial, trivial⟩
    omega

theorem bindingsOf_reloadEffects (l : List WindowSession) : ∀ base,
    bindingsOf (reloadEffects base l) = (List.range' base l.length).zip l := by
  induction l with
  | nil => intro base; rfl
  | cons ws rest ih =>
    intro base
    have := ih (base + 1)
    simp only [reloadEffects, List.length_cons, List.range'_succ, List.zip_cons_cons]
    simpa [bindingsOf] using this

theorem createdOf_reloadEffects (l : List WindowSession) : ∀ base,
    createdOf (reloadEffects base l) = List.range' base l.length := by
  induction l with
  | nil => intro base; rfl
  | cons ws rest ih =>
    intro base
    have := ih (base + 1)
    simp only [reloadEffects, List.length_cons, List.range'_succ]
    simpa [createdOf] using this

theorem count_reloadBlock (w base : Nat) (ws : WindowSession) :
    ([Effect.newMainWindow base ws, Effect.log LogLine.windowCreated, Effect.reloadGeometry base,
      Effect.reloadSession base, Effect.show_ base] : List Effect).count (Effect.reloadGeometry w)
      = (if base = w then 1 else 0) ∧
    ([Effect.newMainWindow base ws, Effect.log LogLine.windowCreated, Effect.reloadGeometry base,
      Effect.reloadSession base, Effect.show_ base] : List Effect).count (Effect.reloadSession w)
      = (if base = w then 1 else 0) ∧
    ([Effect.newMainWindow base ws, Effect.log LogLine.windowCreated, Effect.reloadGeometry base,
      Effect.reloadSession base, Effect.show_ base] : List Effect).count (Effect.show_ w)
      = (if base = w then 1 else 0) := by
  refine ⟨?_, ?_, ?_⟩ <;> simp [List.count_cons]

theorem count_reloadEffects (w : Nat) (l : List WindowSession) : ∀ base : Nat,
    (reloadEffects base l).count (Effect.reloadGeometry w)
      = (if base ≤ w ∧ w < base + l.length then 1 else 0) ∧
    (reloadEffects base l).count (Effect.reloadSession w)
      = (if base ≤ w ∧ w < base + l.length then 1 else 0) ∧
    (reloadEffects base l).count (Effect.show_ w)
      = (if base ≤ w ∧ w < base + l.length then 1 else 0) := by
  induction l with
  | nil =>
    intro base
    have hno : ¬ (base ≤ w ∧ w < base + ([] : List WindowSession).length) := by
      simp only [List.length_nil]; omega
    rw [if_neg hno]
    exact ⟨rfl, rfl, rfl⟩
  | cons ws rest ih =>
    intro base
    obtain ⟨h1, h2, h3⟩ := ih (base + 1)
    obtain ⟨b1, b2, b3⟩ := count_reloadBlock w base ws
    have key : (if base = w then 1 else 0) + (if base + 1 ≤ w ∧ w < base + 1 + rest.length
        then 1 else 0) = (if base ≤ w ∧ w < base + (ws :: rest).length then 1 else 0) := by
      simp only [List.length_cons]
      split_ifs <;> omega
    rw [reloadEffects, List.count_append, List.count_append, List.count_append,
      b1, b2, b3, h1, h2, h3, key]
    exact ⟨rfl, rfl, rfl⟩

/-- C6: when `mainWindows_` is empty and the session (the one present, or the
    one created because none was) holds N >= 1 fragments, `reloadSession`
    constructs exactly N windows and draws no fresh identifier; the i-th
    window constructed is bound to the i-th fragment; `reloadGeometry`,
    `reloadSession` and `show` are called once on each; and the window
    returned is the one constructed last. -/
theorem C6_reloadSession_restores_every_fragment (env : Env) (s : KloggApp) (session : Session)
    (hmain : s.mainWindows_ = [])
    (hsess : (ensureSession env s).session_ = some session)
    (hne : session.windowSessions ≠ []) :
    ∃ w s1, reloadSession env s = some (w, s1) ∧
      s1.trace = s.trace ++ reloadEffects s.constructed session.windowSessions ∧
      s1.constructed = s.constructed + session.windowSessions.length ∧
      s1.mainWindows_ = List.range' s.constructed session.windowSessions.length ∧
      bindingsOf (s1.trace.drop s.trace.length)
        = (List.range' s.constructed session.windowSessions.length).zip session.windowSessions ∧
      s1.uuidsDrawn = s.uuidsDrawn ∧
      (∀ x ∈ s1.mainWindows_,
        (s1.trace.drop s.trace.length).count (Effect.reloadGeometry x) = 1 ∧
        (s1.trace.drop s.trace.length).count (Effect.reloadSession x) = 1 ∧
        (s1.trace.drop s.trace.length).count (Effect.show_ x) = 1) ∧
      w = s.constructed + session.windowSessions.length - 1 ∧
      (createdOf s1.trace).getLast? = some w := by
  have hlen : session.windowSessions.length ≠ 0 := by
    intro h0; exact hne (List.length_eq_zero.mp h0)
  obtain ⟨h1, h2, h3, h4, _⟩ := foldl_reloadOne_spec session.windowSessions (ensureSession env s)
  have etrace : (ensureSession env s).trace = s.trace := by
    unfold ensureSession; cases s.session_ <;> rfl
  have emain : (ensureSession env s).mainWindows_ = s.mainWindows_ := by
    unfold ensureSession; cases s.session_ <;> rfl
  have econ : (ensureSession env s).constructed = s.constructed := by
    unfold ensureSession; cases s.session_ <;> rfl
  have euuid : (ensureSession env s).uuidsDrawn = s.uuidsDrawn := by
    unfold ensureSession; cases s.session_ <;> rfl
  rw [etrace, econ] at h1
  rw [emain, econ, hmain, List.nil_append] at h2
  rw [econ] at h3
  rw [euuid] at h4
  have hnonempty : (session.windowSessions.foldl reloadOne (ensureSession env s)).mainWindows_.isEmpty
      = false := by
    rw [h2]
    cases hl : session.windowSessions with
    | nil => exact absurd hl hne
    | cons a b => simp [List.range'_succ]
  have hlast : (session.windowSessions.foldl reloadOne (ensureSession env s)).mainWindows_.getLast?
      = some (s.constructed + session.windowSessions.length - 1) := by
    rw [h2, List.getLast?_range', if_neg hlen]
  refine ⟨s.constructed + session.windowSessions.length - 1,
    session.windowSessions.foldl reloadOne (ensureSession env s), ?_, h1, h3, h2, ?_, h4, ?_, rfl, ?_⟩
  · unfold reloadSession
    simp only [hsess, hnonempty, Bool.false_eq_true, if_false, hlast]
  · rw [h1, List.drop_left, bindingsOf_reloadEffects]
  · intro x hx
    rw [h2, List.mem_range'_1] at hx
    obtain ⟨c1, c2, c3⟩ := count_reloadEffects x session.windowSessions s.constructed
    rw [h1, List.drop_left, c1, c2, c3, if_pos hx]
    exact ⟨rfl, rfl, rfl⟩
  · rw [h1, createdOf_append]
    cases hl : session.windowSessions with
    | nil => exact absurd hl hne
    | cons a b =>
      have hc := createdOf_reloadEffects (a :: b) s.constructed
      rw [hc, List.getLast?_append, List.getLast?_range']
      simp

/-- C6 on the initial state with the stored session A, B, C: the windows
    0, 1, 2 are bound to A, B, C and window 2 is returned. -/
theorem C6_witness_ABC :
    (∃ w s1, reloadSession savedEnv KloggApp.init = some (w, s1) ∧
      s1.trace = KloggApp.init.trace
        ++ reloadEffects KloggApp.init.constructed savedEnv.makeSession.windowSessions ∧
      s1.constructed = KloggApp.init.constructed + savedEnv.makeSession.windowSessions.length ∧
      s1.mainWindows_
        = List.range' KloggApp.init.constructed savedEnv.makeSession.windowSessions.length ∧
      bindingsOf (s1.trace.drop KloggApp.init.trace.length)
        = (List.range' KloggApp.init.constructed savedEnv.makeSession.windowSessions.length).zip
            savedEnv.makeSession.windowSessions ∧
      s1.uuidsDrawn = KloggApp.init.uuidsDrawn ∧
      (∀ x ∈ s1.mainWindows_,
        (s1.trace.drop KloggApp.init.trace.length).count (Effect.reloadGeometry x) = 1 ∧
        (s1.trace.drop KloggApp.init.trace.length).count (Effect.reloadSession x) = 1 ∧
        (s1.trace.drop KloggApp.init.trace.length).count (Effect.show_ x) = 1) ∧
      w = KloggApp.init.constructed + savedEnv.makeSession.windowSessions.length - 1 ∧
      (createdOf s1.trace).getLast? = some w) ∧
    reloadSession savedEnv KloggApp.init = some (2, stateABC) ∧
    bindingsOf stateABC.trace = [(0, ⟨"A"⟩), (1, ⟨"B"⟩), (2, ⟨"C"⟩)] :=
  ⟨C6_reloadSession_restores_every_fragment savedEnv KloggApp.init savedEnv.makeSession rfl rfl
    (by decide), rfl, by decide⟩

theorem ensureSession_fields (env : Env) (s : KloggApp) :
    (ensureSession env s).trace = s.trace ∧
    (ensureSession env s).mainWindows_ = s.mainWindows_ ∧
    (ensureSession env s).constructed = s.constructed ∧
    (ensureSession env s).uuidsDrawn = s.uuidsDrawn ∧
    (ensureSession env s).destroyed = s.destroyed := by
  unfold ensureSession
  cases s.session_ <;> exact ⟨rfl, rfl, rfl, rfl, rfl⟩

theorem ensureSession_idem (env : Env) (s : KloggApp) :
    ensureSession env (ensureSession env s) = ensureSession env s := by
  unfold ensureSession
  cases h : s.session_ <;> simp [h]

theorem newWindow_session (env : Env) (s : KloggApp) :
    (newWindow env s).2.session_ = (ensureSession env s).session_ := rfl

/-- C7: when `mainWindows_` is empty (a first run) and the session (the one
    present, or the one created because none was) holds no fragment,
    `reloadSession` constructs exactly one window, bound to the identifier
    drawn from `generateIdFromUuid` by this call, calls `show` on it and
    returns it. -/
theorem C7_first_run_creates_one_fresh_window (env : Env) (s : KloggApp) (session : Session)
    (hmain : s.mainWindows_ = [])
    (hsess : (ensureSession env s).session_ = some session)
    (hempty : session.windowSessions = []) :
    ∃ s1, reloadSession env s = some (s.constructed, s1) ∧
      s1.trace = s.trace ++
        [Effect.newMainWindow s.constructed ⟨env.generateIdFromUuid s.uuidsDrawn⟩,
         Effect.log LogLine.windowCreated, Effect.show_ s.constructed] ∧
      s1.mainWindows_ = [s.constructed] ∧
      s1.constructed = s.constructed + 1 ∧
      s1.uuidsDrawn = s.uuidsDrawn + 1 ∧
      s1.session_ = some session := by
  obtain ⟨et, em, ec, eu, _⟩ := ensureSession_fields env s
  have hE : (ensureSession env s).mainWindows_.isEmpty = true := by rw [em, hmain]; rfl
  refine ⟨(newWindow env (ensureSession env s)).2.emit
    (Effect.show_ (newWindow env (ensureSession env s)).1), ?_, ?_, ?_, ?_, ?_, ?_⟩
  · unfold reloadSession
    simp only [hsess, hempty, List.foldl_nil, hE, if_true]
    have hl : ((newWindow env (ensureSession env s)).2.emit
        (Effect.show_ (newWindow env (ensureSession env s)).1)).mainWindows_.getLast?
        = some s.constructed := by
      show (newWindow env (ensureSession env s)).2.mainWindows_.getLast? = _
      rw [newWindow_main, em, hmain, ec]
      rfl
    rw [hl]
  · show (newWindow env (ensureSession env s)).2.trace ++ _ = _
    rw [newWindow_trace, newWindow_fst, et, ec, eu]
    simp
  · show (newWindow env (ensureSession env s)).2.mainWindows_ = _
    rw [newWindow_main, em, hmain, ec]
    rfl
  · show (newWindow env (ensureSession env s)).2.constructed = _
    rw [newWindow_constructed, ec]
  · show (newWindow env (ensureSession env s)).2.uuidsDrawn = _
    rw [newWindow_uuidsDrawn, eu]
  · show (newWindow env (ensureSession env s)).2.session_ = _
    rw [newWindow_session, ensureSession_idem, hsess]

/-- C7 on the initial state, where no session exists and an empty one is
    created: window 0 is created with the first identifier drawn. -/
theorem C7_witness_first_run :
    (∃ s1, reloadSession sampleEnv KloggApp.init = some (KloggApp.init.constructed, s1) ∧
      s1.trace = KloggApp.init.trace ++
        [Effect.newMainWindow KloggApp.init.constructed
           ⟨sampleEnv.generateIdFromUuid KloggApp.init.uuidsDrawn⟩,
         Effect.log LogLine.windowCreated, Effect.show_ KloggApp.init.constructed] ∧
      s1.mainWindows_ = [KloggApp.init.constructed] ∧
      s1.constructed = KloggApp.init.constructed + 1 ∧
      s1.uuidsDrawn = KloggApp.init.uuidsDrawn + 1 ∧
      s1.session_ = some sampleEnv.makeSession) ∧
    reloadSession sampleEnv KloggApp.init = some (0, stateFirstRun) :=
  ⟨C7_first_run_creates_one_fresh_window sampleEnv KloggApp.init sampleEnv.makeSession rfl rfl rfl,
    rfl⟩

/-! ## C8: the secondary instance -/

theorem filesToOpen_eq (filenames : List QString) : filesToOpen filenames = filenames := by
  have h : ∀ (l acc : List QString),
      l.foldl (fun acc filename => acc ++ [filename]) acc = acc ++ l := by
    intro l
    induction l with
    | nil => intro acc; simp
    | cons x xs ih => intro acc; simp [ih]
  simpa [filesToOpen] using h filenames []

theorem messageData_eq (env : Env) (filenames : List QString) :
    messageData env filenames
      = [("files", QVariant.stringList filenames),
         ("version", QVariant.string env.GLOGG_VERSION)] := by
  have hne : ("files" : String) ≠ "version" := by decide
  have hlt : ("files" : String).toList < ("version" : String).toList := by decide
  simp only [messageData, QVariantMap.insert, filesToOpen_eq, if_neg hne, if_pos hlt]

/-- C8, evaluated on the code. The timer body reads the caller's vector
    through the captured reference when the timer fires. When the vector is
    still alive then, exactly one message is sent, with timeout 5000, holding
    `GLOGG_VERSION` and the contents the vector has at that moment in their
    order, and one quit timer of 100 follows, whatever `sendMessage`
    returns, and no window is created. When the vector was destroyed the
    read is undefined. The file-open event of a secondary instance passes a
    temporary vector, which is destroyed before the timer fires: there the
    timer body is undefined. And a vector changed after the call is sent
    with its new contents, not those given at the call. -/
theorem C8_timer_body_reads_vector_by_reference :
    (∀ (env : Env) (s : KloggApp) (vectors : Vectors) (ref : VectorRef)
        (contents : List QString) (sent : Bool),
      vectors.read ref = some contents →
      sendFilesTimeout env (sendFilesToPrimaryInstance s ref) vectors ref sent =
        some { s with
          trace := s.trace ++
            [Effect.singleShot 100 (TimerAction.sendFiles ref),
             Effect.sendMessage
               [("files", QVariant.stringList contents),
                ("version", QVariant.string env.GLOGG_VERSION)] 5000,
             Effect.singleShot 100 TimerAction.quit] }) ∧
    (∀ (env : Env) (s : KloggApp) (vectors : Vectors) (ref : VectorRef) (sent : Bool),
      vectors.read ref = none →
      sendFilesTimeout env (sendFilesToPrimaryInstance s ref) vectors ref sent = none) ∧
    (∃ s1 vectors1 ref,
      event sampleEnv false KloggApp.init Vectors.empty "a.log" = some (s1, vectors1) ∧
      s1.trace = [Effect.singleShot 100 (TimerAction.sendFiles ref)] ∧
      vectors1.read ref = none ∧
      sendFilesTimeout sampleEnv s1 vectors1 ref true = none ∧
      sendFilesTimeout sampleEnv s1 vectors1 ref false = none) ∧
    (sendFilesTimeout sampleEnv
        (sendFilesToPrimaryInstance KloggApp.init (Vectors.empty.alloc ["a.log", "b.log"]).1)
        ((Vectors.empty.alloc ["a.log", "b.log"]).2.assign
          (Vectors.empty.alloc ["a.log", "b.log"]).1 ["c.log"])
        (Vectors.empty.alloc ["a.log", "b.log"]).1 true).map (fun s2 => s2.trace)
      = some [Effect.singleShot 100 (TimerAction.sendFiles 0),
          Effect.sendMessage
            [("files", QVariant.stringList ["c.log"]), ("version", QVariant.string "19.9")] 5000,
          Effect.singleShot 100 TimerAction.quit] := by
  refine ⟨?_, ?_, ⟨_, _, 0, rfl, rfl, rfl, rfl, rfl⟩, ?_⟩
  · intro env s vectors ref contents sent hread
    simp [sendFilesTimeout, sendFilesToPrimaryInstance, hread, KloggApp.emit, messageData_eq]
  · intro env s vectors ref sent hread
    simp [sendFilesTimeout, hread]
  · decide

/-! ## C9: membership in `mainWindows_` -/

theorem run_stateStale :
    run sampleEnv KloggApp.init [Op.reloadSession, Op.destroy 0] = some stateStale := by
  rfl

/-- With the windows A, B, C restored and window 2 destroyed, an exit request
    is undefined: `exitApplication` calls `close()` through the pointer to the
    destroyed window 2. -/
theorem run_exit_after_destroy_undefined :
    run savedEnv KloggApp.init [Op.reloadSession, Op.destroy 2, Op.signalExitRequested 0] = none ∧
    run sampleEnv KloggApp.init
      [Op.reloadSession, Op.signalNewWindow 0, Op.destroy 0, Op.signalExitRequested 1] = none :=
  ⟨rfl, rfl⟩

/-- C1 on a first run whose only window was destroyed: the stale entry is
    popped, window 1 is created and receives the load. -/
theorem C1_witness_stale_entry :
    (∃ s1 w, loadFileNonInteractive sampleEnv stateStale "x.log" = some s1 ∧
      s1.constructed ≤ stateStale.constructed + 1 ∧
      loadsOf s1.trace = loadsOf stateStale.trace ++ [(w, "x.log")] ∧
      w ∈ s1.mainWindows_ ∧ w ∉ s1.destroyed) ∧
    (loadFileNonInteractive sampleEnv stateStale "x.log").map
      (fun s => (s.mainWindows_, s.activeWindows_, s.destroyed, loadsOf s.trace))
      = some ([0, 1], [1], [0], [(1, "x.log")]) :=
  ⟨by
    obtain ⟨s1, w, h2, _, _, h5, h6, _, _, _, h10, h11⟩ :=
      C1_loadFileNonInteractive_targets_live_window sampleEnv [Op.reloadSession, Op.destroy 0]
        stateStale "x.log" run_stateStale
    exact ⟨s1, w, h2, h5, h6, h10, h11⟩,
   by decide⟩

/-- C10 on a first run: window 0 exists, the session is present, and the
    exit request of window 0 is served. -/
theorem C10_witness_first_run :
    (0 < stateFirstRun.constructed → stateFirstRun.session_.isSome = true) ∧
    stateFirstRun.delivers 0 Signal.exitRequested = true ∧
    (exitApplication stateFirstRun).map (fun s1 => s1.session_.map Session.exitRequested)
      = some (some true) :=
  ⟨(C10_session_present_once_a_window_exists sampleEnv [Op.reloadSession] stateFirstRun
      run_stateFirstRun).1,
   by decide, by decide⟩

end Klogg
